import Mathlib

/-!
Verification development for the postmaker repository.

The filename metadata extractor (`parse_filename` in `src/bot.py` and its
sibling in `src/index.py`) is embedded as executable functions over
`List Char`.  Strings are modelled as lists of characters; Python's
ASCII-range case conversion, `str.strip`, `str.split` and substring test
are reproduced character by character.  The session-orchestration part of
`bot.py` (`new_post_handler` and its helper `get_response_or_callback`)
is embedded as a deterministic interpreter over a script of user events,
with external collaborators (preset store, paste service, link resolver)
supplied as an environment record.
-/

namespace Postmaker

/-! ### Character and list-of-char utilities (Python string semantics, ASCII range) -/

/-- Python `str.lower` for an ASCII character (`bot.py` line 385 lowers the filename). -/
def lowerChar (c : Char) : Char :=
  if 'A' ≤ c ∧ c ≤ 'Z' then Char.ofNat (c.toNat + 32) else c

/-- Python `str.upper` for an ASCII character. -/
def upperChar (c : Char) : Char :=
  if 'a' ≤ c ∧ c ≤ 'z' then Char.ofNat (c.toNat - 32) else c

/-- Python `str.isdigit` for an ASCII character. -/
def isDigitChar (c : Char) : Bool :=
  '0' ≤ c ∧ c ≤ '9'

/-- Python default whitespace set used by `str.strip` and `str.split()`. -/
def isSpaceChar (c : Char) : Bool :=
  c = ' ' ∨ c = '\t' ∨ c = '\n' ∨ c = '\x0d' ∨ c = '\x0b' ∨ c = '\x0c'

/-- Lower-case a whole string. -/
def lowerL (l : List Char) : List Char := l.map lowerChar

/-- Upper-case a whole string (`result["variant_type"].upper()`, `bot.py` line 546). -/
def upperL (l : List Char) : List Char := l.map upperChar

/-- Python `str.strip()` with the default whitespace set. -/
def stripL (l : List Char) : List Char :=
  ((l.dropWhile isSpaceChar).reverse.dropWhile isSpaceChar).reverse

/-- Python `s.split(sep)` for a one-character separator: empty input gives `[""]`,
empty fields are kept. -/
def splitOnChar (sep : Char) : List Char → List (List Char)
  | [] => [[]]
  | c :: cs =>
    match splitOnChar sep cs with
    | [] => [[]]
    | h :: t => if c = sep then [] :: h :: t else (c :: h) :: t

/-- Python `needle in hay` substring test. -/
def containsSub (needle : List Char) : List Char → Bool
  | [] => needle.isEmpty
  | c :: cs => needle.isPrefixOf (c :: cs) || containsSub needle cs

/-- Python `str.split()` (no argument): split on whitespace runs, dropping empties. -/
def wordsPy (l : List Char) : List (List Char) :=
  let step : Char → List Char × List (List Char) → List Char × List (List Char) :=
    fun c acc =>
      if isSpaceChar c then
        (if acc.1 = [] then acc else ([], acc.1 :: acc.2))
      else (c :: acc.1, acc.2)
  let r := l.foldr step ([], [])
  if r.1 = [] then r.2 else r.1 :: r.2

/-- Python `str.capitalize`: first character upper-cased, rest lower-cased. -/
def capitalizePy : List Char → List Char
  | [] => []
  | c :: cs => upperChar c :: lowerL cs

/-- Join a list of words with single spaces (Python `' '.join(...)`). -/
def joinSpace : List (List Char) → List Char
  | [] => []
  | [w] => w
  | w :: ws => w ++ ' ' :: joinSpace ws

/-! ### The filename extractor of `src/bot.py` (`parse_filename`, lines 370-564) -/

/-- `re.sub(r'[*_]', '', filename).lower()` (`bot.py` line 385). -/
def normalizeName (l : List Char) : List Char :=
  lowerL (l.filter (fun c => ¬(c = '*' ∨ c = '_')))

/-- The status keyword list of `bot.py` lines 412-424, highest priority first. -/
def statusPriority : List (List Char) :=
  ["official".toList, "unofficial".toList, "community".toList, "stable".toList,
   "beta".toList, "alpha".toList, "rc".toList, "nightly".toList,
   "experimental".toList, "test".toList, "enchanted".toList]

/-- The variant keyword list of `bot.py` line 427. -/
def variantKeywords : List (List Char) :=
  ["gapps".toList, "gms".toList, "vanilla".toList, "core".toList,
   "lite".toList, "full".toList, "mini".toList]

/-- `re.match(r'^[a-z][a-z0-9]{2,9}$', s)` (`bot.py` lines 490 and 553). -/
def codenameShape : List Char → Bool
  | [] => false
  | c :: cs =>
    ('a' ≤ c ∧ c ≤ 'z') && cs.all (fun d => ('a' ≤ d ∧ d ≤ 'z') ∨ ('0' ≤ d ∧ d ≤ '9'))
      && 2 ≤ cs.length && cs.length ≤ 9

/-- `part.split('.')[0].strip()` (`bot.py` line 444). -/
def cleanPart (part : List Char) : List Char :=
  stripL ((splitOnChar '.' part).headD [])

/-- Mutable scan state of the per-segment loop (`bot.py` lines 394-492).
`prio` models `found_status_priority`, with `float('inf')` rendered as 11,
one past the largest status index. -/
structure ScanSt where
  version : Option (List Char)
  build_date : Option (List Char)
  status : Option (List Char)
  prio : Nat
  variant_type : Option (List Char)
  candidates : List (List Char)
  deriving DecidableEq, Repr

def initScanSt (ver : Option (List Char)) : ScanSt :=
  { version := ver, build_date := none, status := none, prio := 11,
    variant_type := none, candidates := [] }

/-- One step of the status keyword fold of `bot.py` lines 467-474: a keyword that
occurs in the segment replaces the current status when its index is lower. -/
def statusStep (cp : List Char) (acc : Nat × Option (List Char)) (e : Nat × List Char) :
    Nat × Option (List Char) :=
  if containsSub e.2 cp then (if e.1 < acc.1 then (e.1, some e.2) else acc) else acc

/-- The full status scan over the priority list for one segment (`bot.py`). -/
def statusScan (cp : List Char) (acc : Nat × Option (List Char)) : Nat × Option (List Char) :=
  statusPriority.enum.foldl (statusStep cp) acc

/-- The variant scan of `bot.py` lines 477-482: the first matching keyword is
kept when no variant has been found yet. -/
def variantScan (cp : List Char) (vt : Option (List Char)) : Option (List Char) :=
  match vt with
  | some v => some v
  | none => variantKeywords.find? (fun k => containsSub k cp)

/-- The device-candidate test of `bot.py` lines 486-491. -/
def deviceTest (cp : List Char) : Bool :=
  (3 ≤ cp.length && cp.length ≤ 10)
    && !(cp ≠ [] && cp.all isDigitChar)
    && !(statusPriority.any (fun s => containsSub s cp))
    && !(variantKeywords.any (fun v => containsSub v cp))
    && codenameShape cp

/-- Guard of the date branch, `re.match(r'^\d{6,}$', clean_part)` (`bot.py` line 451). -/
def isDateRun (cp : List Char) : Bool :=
  cp.all isDigitChar && 6 ≤ cp.length

/-- Guard of the version branch (`bot.py` lines 458-459), evaluated when no
version has been found yet. -/
def isVersionTok (cp : List Char) : Bool :=
  (cp.headD ' ' = 'v' && cp.any isDigitChar) || (cp ≠ [] && cp.all isDigitChar)

/-- Processing of one segment after the first (`bot.py` lines 443-492).  The
date and version branches `continue`, so a segment they consume is not
scanned for status, variant or device shape. -/
def processPart (st : ScanSt) (part : List Char) : ScanSt :=
  let cp := cleanPart part
  if cp = [] then st
  else if isDateRun cp then
    { st with build_date := if st.build_date = none then some cp else st.build_date }
  else if st.version = none ∧ isVersionTok cp then
    { st with version := some (cp.dropWhile (· = 'v')) }
  else
    let s := statusScan cp (st.prio, st.status)
    let vt := variantScan cp st.variant_type
    let cands := if deviceTest cp then st.candidates ++ [cp] else st.candidates
    { st with status := s.2, prio := s.1, variant_type := vt, candidates := cands }

/-- Maximal digit run and remainder. -/
def takeDigits (l : List Char) : List Char × List Char :=
  (l.takeWhile isDigitChar, l.dropWhile isDigitChar)

/-- Greedy extension loop of the dotted version pattern `(?:\.\d+)*`, with a
fuel argument for structural recursion.  Every round consumes at least two
characters, so fuel equal to the list length is never exhausted. -/
def dottedExtF : Nat → List Char → List Char
  | 0, _ => []
  | fuel + 1, l =>
    match l with
    | '.' :: r =>
      match takeDigits r with
      | ([], _) => []
      | (d :: ds, r2) => '.' :: (d :: ds) ++ dottedExtF fuel r2
    | _ => []

def dottedExt (l : List Char) : List Char := dottedExtF l.length l

/-- Attempt to match `\d+\.\d+(?:\.\d+)*` at the start of the string. -/
def dottedHere (l : List Char) : Option (List Char) :=
  match takeDigits l with
  | ([], _) => none
  | (d1, rest) =>
    match rest with
    | '.' :: r2 =>
      match takeDigits r2 with
      | ([], _) => none
      | (d2, r3) => some (d1 ++ '.' :: d2 ++ dottedExt r3)
    | _ => none

/-- `re.search(r'v?(\d+\.\d+(?:\.\d+)*)', s)` (`bot.py` line 434): leftmost
match; the optional leading `v` never changes the captured group. -/
def findDotted : List Char → Option (List Char)
  | [] => none
  | c :: cs =>
    match dottedHere (c :: cs) with
    | some v => some v
    | none => findDotted cs

/-! ### `datetime.strptime` / `strftime` model for the formats used -/

def d2n (c : Char) : Nat := c.toNat - 48

def isLeapYear (y : Nat) : Bool := y % 4 = 0 && (y % 100 ≠ 0 || y % 400 = 0)

def daysInMonth (y m : Nat) : Nat :=
  if m = 2 then (if isLeapYear y then 29 else 28)
  else if m = 4 ∨ m = 6 ∨ m = 9 ∨ m = 11 then 30
  else 31

/-- Two-digit month pattern `1[0-2]|0[1-9]`: the values `01`..`12`. -/
def month2 (a b : Char) : Option Nat :=
  let m := 10 * d2n a + d2n b
  if 1 ≤ m ∧ m ≤ 12 then some m else none

/-- Two-digit day pattern `3[01]|[12]\d|0[1-9]`: the values `01`..`31`. -/
def day2 (a b : Char) : Option Nat :=
  let d := 10 * d2n a + d2n b
  if 1 ≤ d ∧ d ≤ 31 then some d else none

def oneTo9 (c : Char) : Bool := '1' ≤ c ∧ c ≤ '9'

/-- `datetime` range/validity check applied after the pattern match:
`MINYEAR = 1`, day bounded by the month length. -/
def dateValid (y m d : Nat) : Option (Nat × Nat × Nat) :=
  if 1 ≤ y ∧ d ≤ daysInMonth y m then some (y, m, d) else none

/-- `datetime.strptime(s, '%Y%m%d')` on an all-digit string: four-digit year,
then month/day consume the remainder exactly, with the regex alternatives
tried in Python's order when the remainder has three digits. -/
def strpY4 : List Char → Option (Nat × Nat × Nat)
  | [y1, y2, y3, y4, m1, m2, dd1, dd2] => do
    let y := 1000 * d2n y1 + 100 * d2n y2 + 10 * d2n y3 + d2n y4
    let m ← month2 m1 m2
    let d ← day2 dd1 dd2
    dateValid y m d
  | [y1, y2, y3, y4, a, b, c] =>
    let y := 1000 * d2n y1 + 100 * d2n y2 + 10 * d2n y3 + d2n y4
    if a = '1' ∧ ('0' ≤ b ∧ b ≤ '2') ∧ oneTo9 c then
      dateValid y (10 + d2n b) (d2n c)
    else if a = '0' ∧ oneTo9 b ∧ oneTo9 c then
      dateValid y (d2n b) (d2n c)
    else if oneTo9 a ∧ 1 ≤ 10 * d2n b + d2n c ∧ 10 * d2n b + d2n c ≤ 31 then
      dateValid y (d2n a) (10 * d2n b + d2n c)
    else none
  | [y1, y2, y3, y4, a, b] =>
    let y := 1000 * d2n y1 + 100 * d2n y2 + 10 * d2n y3 + d2n y4
    if oneTo9 a ∧ oneTo9 b then dateValid y (d2n a) (d2n b) else none
  | _ => none

/-- `datetime.strptime(s, '%y%m%d')` on a six-digit string, with Python's
two-digit year pivot (00-68 → 2000s, 69-99 → 1900s). -/
def strpY2 : List Char → Option (Nat × Nat × Nat)
  | [a, b, m1, m2, dd1, dd2] => do
    let yy := 10 * d2n a + d2n b
    let y := if yy ≤ 68 then 2000 + yy else 1900 + yy
    let m ← month2 m1 m2
    let d ← day2 dd1 dd2
    dateValid y m d
  | _ => none

def digitChar : Nat → Char
  | 0 => '0' | 1 => '1' | 2 => '2' | 3 => '3' | 4 => '4'
  | 5 => '5' | 6 => '6' | 7 => '7' | 8 => '8' | 9 => '9'
  | _ => '0'

def pad2 (n : Nat) : List Char := [digitChar (n / 10 % 10), digitChar (n % 10)]

/-- `date_obj.strftime('%d/%m/%y')` (`bot.py` line 508). -/
def fmtDMY (y m d : Nat) : List Char :=
  pad2 d ++ '/' :: pad2 m ++ '/' :: pad2 (y % 100)

/-- `s[-8:]` for a string longer than eight characters. -/
def lastN (n : Nat) (l : List Char) : List Char := l.drop (l.length - n)

/-- The build-date post-processing of `bot.py` lines 494-511: dispatch on the
digit-run length, render on success, keep the raw digits on `ValueError`. -/
def processDate (bd : List Char) : List Char :=
  let parsed :=
    if bd.length = 8 then strpY4 bd
    else if bd.length = 6 then strpY2 bd
    else strpY4 (if 8 < bd.length then lastN 8 bd else bd)
  match parsed with
  | some (y, m, d) => fmtDMY y m d
  | none => bd

/-! ### Assembling `parse_filename` (bot) -/

/-- The immutable result record of the extractor. -/
structure FilenameRecord where
  version : List Char
  build_date : List Char
  status : List Char
  variant_type : List Char
  device_name : Option (List Char)
  rom_name : Option (List Char)
  deriving DecidableEq, Repr

/-- ROM name from the first segment (`bot.py` lines 405-409). -/
def romNameOf (first : List Char) : Option (List Char) :=
  if stripL first = [] then none
  else some (joinSpace ((wordsPy (stripL first)).map capitalizePy))

/-- Device-name selection of `bot.py` lines 548-561: first candidate passing
the shape re-check, else the last candidate; `None` when the list is empty.
The Python falsiness test `if not result["device_name"]` also fires on an
empty string, which is modelled exactly. -/
def deviceSelect (cands : List (List Char)) : Option (List Char) :=
  if cands = [] then none
  else
    let dn := cands.find? codenameShape
    if dn = none ∨ dn = some [] then some (cands.getLastD []) else dn

/-- The scan phase of `parse_filename` (`bot.py` lines 385-492): normalize,
split, dotted-version search, then the per-segment fold. -/
def scanPhase (filename : List Char) : ScanSt :=
  let cf := normalizeName filename
  let parts := splitOnChar '-' cf
  parts.tail.foldl processPart (initScanSt (findDotted cf))

/-- Version fallback of `bot.py` lines 516-525: the first raw segment
containing a digit, else the literal `Unknown`. -/
def versionFallback (parts : List (List Char)) : List Char :=
  match parts.find? (fun p => p.any isDigitChar) with
  | some p => p
  | none => "Unknown".toList

/-- `parse_filename(filename)` of `src/bot.py`, lines 370-564.  `today` is the
value of `datetime.now().strftime('%d/%m/%y')` at call time, threaded in as a
parameter so the function stays pure. -/
def parse_filename (filename today : List Char) : Option FilenameRecord :=
  let cf := normalizeName filename
  let parts := splitOnChar '-' cf
  if parts.length < 2 then none
  else
    let st := scanPhase filename
    let bd := match st.build_date with
      | some raw => processDate raw
      | none => today
    let ver := match st.version with
      | some v => v
      | none => versionFallback parts
    let status := capitalizePy (match st.status with | some s => s | none => "unofficial".toList)
    let vt := upperL (match st.variant_type with | some v => v | none => "standard".toList)
    some { version := ver, build_date := bd, status := status, variant_type := vt,
           device_name := deviceSelect st.candidates,
           rom_name := romNameOf (parts.headD []) }

/-! ### The filename extractor of `src/index.py` (`parse_filename`, lines 241-380)

Identical scan loop up to two control-flow differences (`break` instead of a
no-op `continue` in the status scan, and a `variant_found`-guarded `continue`
before the device test), and with the whole post-processing block elided
behind `# ...existing code...` comments, so the raw scan values are returned. -/

/-- Raw result record of `index.py`'s `parse_filename`. -/
structure IndexRecord where
  version : Option (List Char)
  build_date : Option (List Char)
  status : Option (List Char)
  variant_type : Option (List Char)
  device_name : Option (List Char)
  rom_name : Option (List Char)
  deriving DecidableEq, Repr

/-- Status scan of `index.py` lines 338-345: `break` on the first keyword that
occurs in the segment, then conditional update. -/
def statusScanIdx (cp : List Char) (acc : Nat × Option (List Char)) : Nat × Option (List Char) :=
  match statusPriority.enum.find? (fun e => containsSub e.2 cp) with
  | some e => if e.1 < acc.1 then (e.1, some e.2) else acc
  | none => acc

/-- Per-segment processing of `index.py` lines 314-368. -/
def processPartIdx (st : ScanSt) (part : List Char) : ScanSt :=
  let cp := cleanPart part
  if cp = [] then st
  else if isDateRun cp then
    { st with build_date := if st.build_date = none then some cp else st.build_date }
  else if st.version = none ∧ isVersionTok cp then
    { st with version := some (cp.dropWhile (· = 'v')) }
  else
    let s := statusScanIdx cp (st.prio, st.status)
    let found :=
      match st.variant_type, variantKeywords.find? (fun k => containsSub k cp) with
      | none, some _ => true
      | _, _ => false
    let vt := variantScan cp st.variant_type
    if found then { st with status := s.2, prio := s.1, variant_type := vt }
    else
      let cands := if deviceTest cp then st.candidates ++ [cp] else st.candidates
      { st with status := s.2, prio := s.1, variant_type := vt, candidates := cands }

/-- `parse_filename(filename)` of `src/index.py`: same front end, no
post-processing (`device_name` is never filled in). -/
def index_parse_filename (filename : List Char) : Option IndexRecord :=
  let cf := normalizeName filename
  let parts := splitOnChar '-' cf
  if parts.length < 2 then none
  else
    let st := parts.tail.foldl processPartIdx (initScanSt (findDotted cf))
    some { version := st.version, build_date := st.build_date, status := st.status,
           variant_type := st.variant_type, device_name := none,
           rom_name := romNameOf (parts.headD []) }

/-! ### Session orchestration (`new_post_handler`, `bot.py` lines 1108-1985)

The wizard is embedded as a deterministic interpreter over a script of the
user events each await observes.  `Ev.tout` models an await elapsing its
timeout (`asyncio.TimeoutError`), `Ev.cbBad` a callback whose transport
acknowledgement raises an unexpected exception.  Sends are logged as short
marker strings; message edits are not user-state and are not logged. -/

abbrev Key := Nat × Nat

inductive Ev where
  | msg (t : List Char)
  | cb (d : List Char)
  | cbBad
  | tout
  deriving DecidableEq, Repr

inductive WErr where
  | timeout
  | internal
  deriving DecidableEq, Repr

inductive PersistOp where
  | saveSupport (v : List Char)
  | saveNotes (v : List Char)
  | saveCredits (v : List Char)
  | saveDeviceCl (v : List Char)
  deriving DecidableEq, Repr

inductive StatOp where
  | statUpdate
  | postIncrement
  deriving DecidableEq, Repr

structure Variant where
  name : List Char
  link : List Char
  sha : Option (List Char)
  deriving DecidableEq, Repr

structure ParsedInfo where
  version : Option (List Char)
  build_date : Option (List Char)
  status : Option (List Char)
  variant_type : Option (List Char)
  device_name : Option (List Char)
  rom_name : Option (List Char)
  deriving DecidableEq, Repr

/-- `post_data`, the in-progress draft owned by one session. -/
structure Draft where
  rom_name : Option (List Char)
  version : Option (List Char)
  build_date : Option (List Char)
  status : Option (List Char)
  device_name : Option (List Char)
  variant_type : Option (List Char)
  variants : List Variant
  support_group : Option (List Char)
  screenshots : Option (List Char)
  device_changelog : Option (List Char)
  source_changelog : Option (List Char)
  notes : Option (List Char)
  credits : Option (List Char)
  deriving DecidableEq, Repr

def initDraft : Draft :=
  { rom_name := none, version := none, build_date := none, status := none,
    device_name := none, variant_type := none, variants := [],
    support_group := none, screenshots := none, device_changelog := none,
    source_changelog := none, notes := none, credits := none }

/-- Per-session interpreter state: pending script, sent messages, persistence
and statistics operations issued, registered temporary listeners. -/
structure WSt where
  sc : List Ev
  sends : List String
  persist : List PersistOp
  statOps : List StatOp
  handlers : List Nat
  fresh : Nat
  draft : Draft
  deriving DecidableEq, Repr

/-- Session computation: state in, state out plus normal result or exception.
State is preserved across an exception so `finally` blocks can observe it. -/
def Wz (α : Type) := WSt → WSt × Except WErr α

def wzPure (a : α) : Wz α := fun s => (s, .ok a)

def wzBind (m : Wz α) (f : α → Wz β) : Wz β := fun s =>
  match m s with
  | (s', .ok a) => f a s'
  | (s', .error e) => (s', .error e)

instance : Monad Wz where
  pure := wzPure
  bind := wzBind

def wthrow (e : WErr) : Wz α := fun s => (s, .error e)

/-- Stepwise evaluation rule for the session monad. -/
theorem wz_bind_ok {α β : Type} {m : Wz α} {f : α → Wz β} {s s' : WSt} {a : α}
    (h : m s = (s', Except.ok a)) : (m >>= f) s = f a s' := by
  show wzBind m f s = f a s'
  unfold wzBind
  rw [h]

/-- Exception propagation rule for the session monad. -/
theorem wz_bind_error {α β : Type} {m : Wz α} {f : α → Wz β} {s s' : WSt} {e : WErr}
    (h : m s = (s', Except.error e)) : (m >>= f) s = (s', Except.error e) := by
  show wzBind m f s = (s', Except.error e)
  unfold wzBind
  rw [h]

def send (m : String) : Wz Unit := fun s => ({ s with sends := s.sends ++ [m] }, .ok ())

def modifyDraft (f : Draft → Draft) : Wz Unit := fun s => ({ s with draft := f s.draft }, .ok ())

def getDraft : Wz Draft := fun s => (s, .ok s.draft)

def persistOp (p : PersistOp) : Wz Unit := fun s => ({ s with persist := s.persist ++ [p] }, .ok ())

def statOp (p : StatOp) : Wz Unit := fun s => ({ s with statOps := s.statOps ++ [p] }, .ok ())

/-- `conv.get_response()`: next text message; callback events are not
messages and pass by; timeout or script end raises. -/
def grAux : List Ev → Option (List Char × List Ev)
  | [] => none
  | .tout :: _ => none
  | .msg t :: r => some (t, r)
  | .cb _ :: r => grAux r
  | .cbBad :: r => grAux r

def getResponse : Wz (List Char) := fun s =>
  match grAux s.sc with
  | some (t, r) => ({ s with sc := r }, .ok t)
  | none => (s, .error .timeout)

/-- `conv.wait_event(events.CallbackQuery(...))` followed by `.answer()`:
next callback event; text messages pass by; a bad callback raises from the
acknowledgement; timeout or script end raises `asyncio.TimeoutError`. -/
def wcAux : List Ev → Option ((Bool × List Char) × List Ev)
  | [] => none
  | .tout :: _ => none
  | .cb d :: r => some ((false, d), r)
  | .cbBad :: r => some ((true, []), r)
  | .msg _ :: r => wcAux r

def waitCallback : Wz (List Char) := fun s =>
  match wcAux s.sc with
  | some ((false, d), r) => ({ s with sc := r }, .ok d)
  | some ((true, _), r) => ({ s with sc := r }, .error .internal)
  | none => (s, .error .timeout)

inductive RouterRes where
  | text (t : List Char)
  | choice (d : List Char)
  deriving DecidableEq, Repr

/-- `get_response_or_callback` (`bot.py` lines 1190-1247): register the two
temporary listeners, wait for the first qualifying event of either kind,
and remove both listeners in the `finally` block on every outcome. -/
def getRespOrCb : Wz RouterRes := fun s =>
  let h1 := s.fresh
  let h2 := s.fresh + 1
  let s1 := { s with handlers := h1 :: h2 :: s.handlers, fresh := s.fresh + 2 }
  let body : WSt × Except WErr RouterRes :=
    match s1.sc with
    | [] => (s1, .error .timeout)
    | .tout :: _ => (s1, .error .timeout)
    | .msg t :: rest => ({ s1 with sc := rest }, .ok (.text t))
    | .cb d :: rest => ({ s1 with sc := rest }, .ok (.choice d))
    | .cbBad :: rest => ({ s1 with sc := rest }, .error .internal)
  ({ body.1 with handlers := (body.1.handlers.erase h1).erase h2 }, body.2)

/-- `data.decode().split('_', 1)[1]`; raises `IndexError` when no underscore. -/
def afterFirstUnder : List Char → Option (List Char)
  | [] => none
  | '_' :: r => some r
  | _ :: r => afterFirstUnder r

/-- `data.decode().split('_')[1]`; raises `IndexError` when no underscore. -/
def secondChunkUnder (d : List Char) : Option (List Char) :=
  (splitOnChar '_' d).get? 1

def decodeOr (o : Option (List Char)) : Wz (List Char) :=
  match o with
  | some v => pure v
  | none => wthrow .internal

def startsHttp (l : List Char) : Bool :=
  "http://".toList.isPrefixOf l || "https://".toList.isPrefixOf l

/-- Python truthiness of an optional string. -/
def optTruthy : Option (List Char) → Bool
  | none => false
  | some [] => false
  | some (_ :: _) => true

/-- External collaborators and ambient data of one `/new` run. -/
structure Env where
  presets : List (List Char)
  getPreset : List Char → Option (List Char × Option (List Char))
  fetched : Option (List Char)
  today : List Char
  savedSupport : Option (List Char)
  savedNotes : Option (List Char)
  savedCredits : Option (List Char)
  savedDeviceCl : Option (List Char)
  pasteResult : Option (List Char)
  indexSupport : Bool
  banners : List Nat

inductive BodyRes where
  | completed
  | abortedLink
  | abortedFilename
  deriving DecidableEq, Repr

/-- Preset selection (`bot.py` lines 1256-1284). -/
def presetStep (env : Env) : Wz Bool := do
  if env.presets = [] then pure false
  else
    send "Do you want to use a saved ROM preset?"
    let d ← waitCallback
    if d ≠ "preset_manual".toList then do
      let pname ← decodeOr (afterFirstUnder d)
      match env.getPreset pname with
      | some pd => do
          modifyDraft (fun dr => { dr with rom_name := some pd.1, source_changelog := pd.2 })
          pure true
      | none => pure false
    else pure false

/-- Step 1, ROM link (`bot.py` lines 1287-1293): non-link input aborts. -/
def linkStep : Wz (Option (List Char)) := do
  send "Okay, let's create a new post."
  let t ← getResponse
  let main_link := stripL t
  if startsHttp main_link then pure (some main_link)
  else do
    send "That doesn't look like a valid link. Please start again with /new."
    pure none

def zipCheck (fn : List Char) : Wz (Option (List Char)) :=
  if fn = [] ∨ ¬(".zip".toList.isSuffixOf (lowerL fn)) then do
    send "Invalid filename (must end with .zip). Please start again with /new."
    pure none
  else pure (some fn)

/-- Step 2, filename fetching (`bot.py` lines 1295-1311). -/
def filenameStep (env : Env) : Wz (Option (List Char)) := do
  send "Attempting to fetch filename automatically..."
  match env.fetched with
  | some fn => do
      send "Automatically fetched filename"
      zipCheck fn
  | none => do
      send "Failed to fetch filename automatically"
      let t ← getResponse
      zipCheck (stripL t)

/-- Step 3, `parse_filename` plus the all-`None` fallback dict
(`bot.py` lines 1313-1323). -/
def parsedInfoOf (env : Env) (fn : List Char) : ParsedInfo :=
  match parse_filename fn env.today with
  | some r =>
    { version := some r.version, build_date := some r.build_date,
      status := some r.status, variant_type := some r.variant_type,
      device_name := r.device_name, rom_name := r.rom_name }
  | none =>
    { version := none, build_date := some env.today,
      status := some "Unofficial".toList, variant_type := none,
      device_name := none, rom_name := none }

/-- Missing-field prompts and the always-asked variant choice
(`bot.py` lines 1325-1374). -/
def missingInfoStep (pi : ParsedInfo) : Wz ParsedInfo := do
  let pi ← (if pi.version = none ∨ pi.version = some "Unknown".toList then do
      send "What's the ROM version?"
      let v ← getResponse
      pure { pi with version := some (stripL v) }
    else pure pi)
  let pi ← (if ¬optTruthy pi.device_name then do
      send "What's the device codename for this ROM?"
      let v ← getResponse
      pure { pi with device_name := some (lowerL (stripL v)) }
    else pure pi)
  let pi ← (if ¬optTruthy pi.status then do
      send "What's the ROM status?"
      let d ← waitCallback
      let sv ← decodeOr (secondChunkUnder d)
      pure { pi with status := some sv }
    else pure pi)
  send "What's the ROM variant?"
  let d ← waitCallback
  let vt ← decodeOr (secondChunkUnder d)
  let vt ← (if vt = "CUSTOM".toList then do
      send "Enter your custom variant name:"
      let c ← getResponse
      pure (upperL (stripL c))
    else pure vt)
  pure { pi with variant_type := some vt }

/-- `post_data.update(parsed_info)` and the first-variant append
(`bot.py` lines 1376-1382). -/
def mergeStep (pi : ParsedInfo) (main_link : List Char) : Wz Unit := do
  modifyDraft (fun dr =>
    { dr with
      version := pi.version,
      build_date := pi.build_date,
      status := pi.status,
      variant_type := pi.variant_type,
      device_name := pi.device_name,
      rom_name := pi.rom_name })
  modifyDraft (fun dr =>
    { dr with variants := dr.variants ++
        [{ name := pi.variant_type.getD [], link := main_link, sha := none }] })

/-- Step 4, ROM name confirmation (`bot.py` lines 1384-1415). -/
def romNameStep (presetChosen : Bool) (pi : ParsedInfo) : Wz Unit := do
  if ¬presetChosen then
    if optTruthy pi.rom_name then do
      send "Detected ROM name. Do you want to use this name?"
      let d ← waitCallback
      if d = "enter_new_rom_name".toList then do
        send "What is the full ROM Name?"
        let r ← getResponse
        modifyDraft (fun dr => { dr with rom_name := some (stripL r) })
      else pure ()
    else do
      send "What is the full ROM Name?"
      let r ← getResponse
      modifyDraft (fun dr => { dr with rom_name := some (stripL r) })
  else send "Using ROM Name from preset"

/-- Step 5, the additional-variant bounded-repeat loop
(`bot.py` lines 1418-1455).  Fuel only bounds the recursion; every
iteration consumes at least one event, so fuel one more than the script
length is never exhausted, and the fuel-out value mirrors an empty script
(timeout). -/
def variantLoop (fuel : Nat) : Wz Unit :=
  match fuel with
  | 0 => wthrow .timeout
  | fuel + 1 => do
    send "Do you want to add another build variant?"
    let d ← waitCallback
    if d = "No".toList then pure ()
    else do
      send "What is the name of this variant?"
      let n ← getResponse
      let vname := upperL (stripL n)
      send "Please send the download link for the variant."
      let lr ← getResponse
      let vlink := stripL lr
      if ¬startsHttp vlink then do
        send "Invalid link. Skipping this variant."
        variantLoop fuel
      else do
        modifyDraft (fun dr =>
          { dr with variants := dr.variants ++ [{ name := vname, link := vlink, sha := none }] })
        send "Variant added."
        variantLoop fuel

/-- Step 6, support group (`bot.py` lines 1457-1482). -/
def supportStep (env : Env) : Wz Unit := do
  send "Please send the link for the Support Group"
  let r ← getRespOrCb
  match r with
  | .choice d =>
    if d = "reuse_support".toList then
      modifyDraft (fun dr => { dr with support_group := env.savedSupport })
    else if d = "skip_support".toList then
      modifyDraft (fun dr => { dr with support_group := none })
    else pure ()
  | .text t => do
    let ti := stripL t
    if lowerL ti = "skip".toList then
      modifyDraft (fun dr => { dr with support_group := none })
    else if startsHttp ti then do
      modifyDraft (fun dr => { dr with support_group := some ti })
      persistOp (.saveSupport ti)
    else do
      send "Invalid link format. Skipping support group."
      modifyDraft (fun dr => { dr with support_group := none })

/-- Step 7, screenshots (`bot.py` lines 1485-1502). -/
def screenshotsStep : Wz Unit := do
  send "Please send the link for Screenshots."
  let r ← getRespOrCb
  match r with
  | .choice d =>
    if d = "skip_ss".toList then
      modifyDraft (fun dr => { dr with screenshots := none })
    else do
      send "Invalid input. Skipping screenshots."
      modifyDraft (fun dr => { dr with screenshots := none })
  | .text t => do
    let ts := stripL t
    if startsHttp ts then modifyDraft (fun dr => { dr with screenshots := some ts })
    else do
      send "Invalid link format. Skipping screenshots."
      modifyDraft (fun dr => { dr with screenshots := none })

/-- Step 8, device changelog (`bot.py` lines 1505-1561). -/
def dcStep (env : Env) : Wz Unit := do
  send "Do you have Device Changelogs?"
  let r ← getRespOrCb
  let triple : Option (List Char) × Option (List Char) × Bool :=
    match r with
    | .choice d =>
      if d = "reuse_dc".toList then (none, env.savedDeviceCl, false)
      else if d = "none_dc".toList then (none, none, true)
      else (none, none, false)
    | .text t =>
      let ts := stripL t
      if lowerL ts = "none".toList then (none, none, true)
      else if startsHttp ts then (none, some ts, false)
      else (some ts, none, false)
  let dcText := triple.1
  let dcLink := triple.2.1
  let dcSkipped := triple.2.2
  if ¬dcSkipped then
    if optTruthy dcLink then do
      let l := dcLink.getD []
      modifyDraft (fun dr => { dr with device_changelog := some l })
      if dcLink ≠ env.savedDeviceCl then do
        send "Save this Device Changelog link for future use?"
        let d ← waitCallback
        if d = "save_dc".toList then persistOp (.saveDeviceCl l) else pure ()
      else pure ()
    else if optTruthy dcText then
      match env.pasteResult with
      | some p => do
          modifyDraft (fun dr => { dr with device_changelog := some p })
          send "Device changelog text uploaded"
      | none => do
          send "Failed to upload device changelog text to Pastebin. Skipping."
          modifyDraft (fun dr => { dr with device_changelog := none })
    else pure ()
  else modifyDraft (fun dr => { dr with device_changelog := none })

/-- Step 9, source changelog (`bot.py` lines 1564-1607). -/
def scStep (env : Env) (presetChosen : Bool) : Wz Unit := do
  let dr ← getDraft
  if ¬presetChosen ∨ ¬optTruthy dr.source_changelog then do
    send "Do you have Source Changelogs?"
    let r ← getRespOrCb
    match r with
    | .choice d => do
      if d ≠ "none_sc".toList then send "Invalid input for Source Changelog. Skipping."
      modifyDraft (fun dr => { dr with source_changelog := none })
    | .text t => do
      let ts := stripL t
      if startsHttp ts then modifyDraft (fun dr => { dr with source_changelog := some ts })
      else if ts ≠ [] then
        match env.pasteResult with
        | some p => do
            modifyDraft (fun dr => { dr with source_changelog := some p })
            send "Source changelog text uploaded"
        | none => do
            send "Failed to upload source changelog text to Pastebin. Skipping."
            modifyDraft (fun dr => { dr with source_changelog := none })
      else pure ()
  else send "Using Source Changelog from preset"

/-- Step 10, notes (`bot.py` lines 1610-1637). -/
def joinNl : List (List Char) → List Char
  | [] => []
  | [l] => l
  | l :: ls => l ++ '\n' :: joinNl ls

/-- `format_bullets` (`bot.py` lines 567-573). -/
def formatBullets (t : List Char) : List Char :=
  if t = [] then []
  else
    let lines := ((splitOnChar '\n' t).map stripL).filter (· ≠ [])
    joinNl (lines.map (fun l =>
      '•' :: ' ' :: (match l with | [] => [] | c :: cs => upperChar c :: cs)))

def notesStep (env : Env) : Wz Unit := do
  send "Do you have any Notes?"
  let r ← getRespOrCb
  match r with
  | .choice d =>
    if d = "reuse_notes".toList then modifyDraft (fun dr => { dr with notes := env.savedNotes })
    else if d = "skip_notes".toList then modifyDraft (fun dr => { dr with notes := none })
    else pure ()
  | .text t => do
    let ts := stripL t
    if lowerL ts = "skip".toList then modifyDraft (fun dr => { dr with notes := none })
    else do
      let fb := formatBullets ts
      modifyDraft (fun dr => { dr with notes := some fb })
      persistOp (.saveNotes fb)

/-- Step 11, credits (`bot.py` lines 1640-1666). -/
def creditsStep (env : Env) : Wz Unit := do
  send "Do you have any Credits?"
  let r ← getRespOrCb
  match r with
  | .choice d =>
    if d = "reuse_credits".toList then modifyDraft (fun dr => { dr with credits := env.savedCredits })
    else if d = "skip_credits".toList then modifyDraft (fun dr => { dr with credits := none })
    else pure ()
  | .text t => do
    let ts := stripL t
    if lowerL ts = "skip".toList then modifyDraft (fun dr => { dr with credits := none })
    else do
      let fb := formatBullets ts
      modifyDraft (fun dr => { dr with credits := some fb })
      persistOp (.saveCredits fb)

/-- Step 12, per-variant checksum bounded-repeat loop
(`bot.py` lines 1686-1708): structural recursion over the variant list. -/
def shaLoop : List Variant → Wz (List Variant)
  | [] => pure []
  | v :: vs => do
    send "Please send the checksum for the variant."
    let r ← getRespOrCb
    let v' ← (match r with
      | .choice d =>
        if d = "skip_sha".toList then pure { v with sha := none }
        else do
          send "Invalid input for checksum. Skipping."
          pure { v with sha := none }
      | .text t => do
        let ts := stripL t
        if ts ≠ [] then pure { v with sha := some ts }
        else do
          send "Empty checksum received. Skipping."
          pure { v with sha := none })
    let vs' ← shaLoop vs
    pure (v' :: vs')

def shaStep : Wz Unit := do
  send "Do you want to add MD5/SHA256 checksums for the variants?"
  let d ← waitCallback
  if d = "Yes".toList then do
    let dr ← getDraft
    let vs' ← shaLoop dr.variants
    modifyDraft (fun dr => { dr with variants := vs' })
  else pure ()

/-- Step 13, interactive preview selection loop (`bot.py` lines 1833-1870).
This loop catches `asyncio.TimeoutError`, sends a note and breaks with the
current options instead of terminating the session. -/
def previewLoop (fuel : Nat) (fmt : List Char) (banner : Option Nat) :
    Wz (List Char × Option Nat) :=
  match fuel with
  | 0 => do
    send "Selection timed out. Using current options."
    pure (fmt, banner)
  | fuel + 1 => fun s =>
    match waitCallback s with
    | (s', .ok d) =>
      (if d = "preview_confirm".toList then pure (fmt, banner)
       else if d = "preview_format_default".toList then previewLoop fuel "default".toList banner
       else if d = "preview_format_minimal".toList then previewLoop fuel "minimal".toList banner
       else if d = "preview_banner_1".toList then previewLoop fuel fmt (some 1)
       else if d = "preview_banner_2".toList then previewLoop fuel fmt (some 2)
       else if d = "preview_banner_none".toList then previewLoop fuel fmt none
       else previewLoop fuel fmt banner) s'
    | (s', .error .timeout) =>
      ({ s' with sends := s'.sends ++ ["Selection timed out. Using current options."] },
       .ok (fmt, banner))
    | (s', .error e) => (s', .error e)

def previewStep (env : Env) : Wz (List Char × Option Nat) := do
  send "Generating previews..."
  send "Preview"
  let banner0 := if env.banners.contains 1 then some 1 else none
  fun s => previewLoop (s.sc.length + 1) "default".toList banner0 s

/-- Posting and the post-count increment (`bot.py` lines 1886-1972). -/
def postingStep (env : Env) : Wz Unit := do
  let dr ← getDraft
  if env.indexSupport then
    if ¬optTruthy dr.device_name then
      send "Error: Device codename missing. Cannot post to channel."
    else send "Posted to channel"
  else do
    send "Note: Channel posting/indexing is not available."
    send "Final post"
  statOp .postIncrement

/-- The wizard body, `bot.py` lines 1250-1974 (inside the `try`). -/
def wizardBody (env : Env) : Wz BodyRes := do
  let presetChosen ← presetStep env
  match ← linkStep with
  | none => pure .abortedLink
  | some main_link =>
    match ← filenameStep env with
    | none => pure .abortedFilename
    | some filename => do
      let pi0 := parsedInfoOf env filename
      let pi ← missingInfoStep pi0
      mergeStep pi main_link
      romNameStep presetChosen pi
      (fun s => variantLoop (s.sc.length + 1) s : Wz Unit)
      supportStep env
      screenshotsStep
      dcStep env
      scStep env presetChosen
      notesStep env
      creditsStep env
      shaStep
      let _sel ← previewStep env
      postingStep env
      pure .completed

/-- Process-wide mutable state: active-session registry (`active_conversations`),
recorded user-statistics operations, and the drafts owned by running sessions. -/
structure GlobalSt where
  registry : List Key
  stats : List StatOp
  drafts : List (Key × Nat)
  deriving DecidableEq, Repr

inductive WizResult where
  | completed
  | abortedLink
  | abortedFilename
  | timedOut
  | errored
  deriving DecidableEq, Repr

def initWSt (sc : List Ev) : WSt :=
  { sc := sc, sends := [], persist := [], statOps := [], handlers := [],
    fresh := 0, draft := initDraft }

/-- The `try/except/finally` around the wizard (`bot.py` lines 1250-1985):
the registry entry is inserted when the conversation opens (line 1254) and
deleted in `finally` (lines 1983-1985) on every exit path; a timeout or an
unexpected exception is converted to a user-visible reply. -/
def runNewPost (env : Env) (g : GlobalSt) (key : Key) (sc : List Ev) :
    GlobalSt × WizResult × List String :=
  let reg1 := key :: g.registry
  let r := wizardBody env (initWSt sc)
  let s1 := r.1
  let outcome : WizResult × List String :=
    match r.2 with
    | .ok .completed => (.completed, s1.sends)
    | .ok .abortedLink => (.abortedLink, s1.sends)
    | .ok .abortedFilename => (.abortedFilename, s1.sends)
    | .error .timeout => (.timedOut, s1.sends ++ ["Command timed out. Please try again."])
    | .error .internal => (.errored, s1.sends ++ ["An error occurred"])
  let reg2 := if key ∈ reg1 then reg1.erase key else reg1
  ({ registry := reg2, stats := g.stats ++ s1.statOps, drafts := g.drafts },
   outcome.1, outcome.2)

/-- A `/new` request together with the ambient permission facts read by the
handler (`is_banned`, chat allowance, `check_post_limit`). -/
structure Req where
  key : Key
  banned : Bool
  isPm : Bool
  pmEnabled : Bool
  allowedChat : Bool
  isOwner : Bool
  canPost : Bool
  deriving DecidableEq, Repr

inductive HandleRes where
  | refusedBanned
  | refusedNotAllowed
  | refusedLimit
  | refusedConflict
  | ran (w : WizResult) (sends : List String)
  deriving DecidableEq, Repr

/-- `new_post_handler` (`bot.py` lines 1110-1985): guard cascade, then
`update_user_stats` (line 1150) and the wizard run.  All replies on refusal
paths are messages only; the first state write (`update_user_stats`) sits
after the active-conversation check of line 1142. -/
def handleNew (env : Env) (g : GlobalSt) (req : Req) (sc : List Ev) :
    GlobalSt × HandleRes :=
  if req.banned then (g, .refusedBanned)
  else if ¬(req.allowedChat ∨ (req.isPm ∧ req.pmEnabled)) ∧ ¬req.isOwner then
    (g, .refusedNotAllowed)
  else if ¬req.isOwner ∧ ¬req.canPost then (g, .refusedLimit)
  else if req.key ∈ g.registry then (g, .refusedConflict)
  else
    let g1 := { g with stats := g.stats ++ [StatOp.statUpdate] }
    let r := runNewPost env g1 req.key sc
    (r.1, .ran r.2.1 r.2.2)

/-- Projection used to state timeout-propagation claims. -/
def bodyOutcome (env : Env) (sc : List Ev) : Except WErr BodyRes :=
  (wizardBody env (initWSt sc)).2

/-! ### Claim-side reference definitions (worded from the specification) -/

/-- Shape test for a rendered `dd/mm/yy` date. -/
def dmyShape : List Char → Bool
  | [d1, d2, '/', m1, m2, '/', y1, y2] =>
    isDigitChar d1 && isDigitChar d2 && isDigitChar m1 && isDigitChar m2
      && isDigitChar y1 && isDigitChar y2
  | _ => false

/-- Date post-processing as the specification words it: 8 digits as YYYYMMDD,
6 digits as YYMMDD, otherwise best-effort the last 8 characters as YYYYMMDD;
unparsable runs kept verbatim. -/
def claimDateFormat (bd : List Char) : List Char :=
  let parsed :=
    if bd.length = 8 then strpY4 bd
    else if bd.length = 6 then strpY2 bd
    else strpY4 (lastN 8 bd)
  match parsed with
  | some (y, m, d) => fmtDMY y m d
  | none => bd

/-- Device-name rule as the specification words it: first candidate matching
the codename shape on re-check, else the last candidate, absent when the
candidate list is empty. -/
def claimDeviceRule (cands : List (List Char)) : Option (List Char) :=
  if cands = [] then none
  else
    match cands.find? codenameShape with
    | some c => some c
    | none => some (cands.getLastD [])

/-- The raw scan-phase record (computed with `bot.py`'s scan functions) that
`index.py`'s truncated `parse_filename` actually returns. -/
def rawRecordOf (f : List Char) : Option IndexRecord :=
  let cf := normalizeName f
  let parts := splitOnChar '-' cf
  if parts.length < 2 then none
  else
    let st := scanPhase f
    some { version := st.version, build_date := st.build_date, status := st.status,
           variant_type := st.variant_type, device_name := none,
           rom_name := romNameOf (parts.headD []) }

/-- Status update of one segment in isolation (`bot.py` lines 465-474). -/
def statusUpdateOf (cp : List Char) (st : ScanSt) : ScanSt :=
  let s := statusScan cp (st.prio, st.status)
  { st with status := s.2, prio := s.1 }

/-- Variant update of one segment in isolation (`bot.py` lines 476-482). -/
def variantUpdateOf (cp : List Char) (st : ScanSt) : ScanSt :=
  { st with variant_type := variantScan cp st.variant_type }

/-- Device-candidate update of one segment in isolation (`bot.py` lines 484-492). -/
def deviceUpdateOf (cp : List Char) (st : ScanSt) : ScanSt :=
  { st with candidates := if deviceTest cp then st.candidates ++ [cp] else st.candidates }

/-! ### Sample data used by witnesses and counterexamples -/

def axionName : List Char := "Axion-v6.2-cancunf-OFFICIAL-GAPPS-20240115.zip".toList

def env0 : Env :=
  { presets := [], getPreset := fun _ => none,
    fetched := some axionName,
    today := "01/01/24".toList, savedSupport := none, savedNotes := none,
    savedCredits := none, savedDeviceCl := none, pasteResult := none,
    indexSupport := false, banners := [] }

def g0 : GlobalSt := { registry := [(5, 6)], stats := [], drafts := [((5, 6), 3)] }

def gE : GlobalSt := { registry := [], stats := [], drafts := [] }

def req0 : Req :=
  { key := (5, 6), banned := false, isPm := true, pmEnabled := true,
    allowedChat := false, isOwner := false, canPost := true }

/-- Script reaching the preview-selection loop and timing out there. -/
def scPreviewTimeout : List Ev :=
  [.msg "https://x/rom.zip".toList, .cb "variant_GAPPS".toList,
   .cb "use_parsed_rom_name".toList, .cb "No".toList, .cb "skip_support".toList,
   .cb "skip_ss".toList, .cb "none_dc".toList, .cb "none_sc".toList,
   .cb "skip_notes".toList, .cb "skip_credits".toList, .cb "No".toList, .tout]

/-- Script timing out inside the additional-variant bounded-repeat loop. -/
def scVariantTimeout : List Ev :=
  [.msg "https://x/rom.zip".toList, .cb "variant_GAPPS".toList,
   .cb "use_parsed_rom_name".toList, .tout]

/-! Intermediate states of the wizard run on `scPreviewTimeout`, named so the
run can be evaluated one step at a time. -/

def c8s0 : WSt := initWSt scPreviewTimeout
def c8s1 : WSt := (linkStep c8s0).1
def c8s2 : WSt := (filenameStep env0 c8s1).1
def c8pi : ParsedInfo := parsedInfoOf env0 axionName
def c8s3 : WSt := (missingInfoStep c8pi c8s2).1
def c8pi2 : ParsedInfo := ((missingInfoStep c8pi c8s2).2).toOption.getD c8pi
def c8s4 : WSt := (mergeStep c8pi2 "https://x/rom.zip".toList c8s3).1
def c8s5 : WSt := (romNameStep false c8pi2 c8s4).1
def c8s6 : WSt := ((fun s => variantLoop (s.sc.length + 1) s : Wz Unit) c8s5).1
def c8s7 : WSt := (supportStep env0 c8s6).1
def c8s8 : WSt := (screenshotsStep c8s7).1
def c8s9 : WSt := (dcStep env0 c8s8).1
def c8s10 : WSt := (scStep env0 false c8s9).1
def c8s11 : WSt := (notesStep env0 c8s10).1
def c8s12 : WSt := (creditsStep env0 c8s11).1
def c8s13 : WSt := (shaStep c8s12).1
def c8s14 : WSt := (previewStep env0 c8s13).1
def c8s15 : WSt := (postingStep env0 c8s14).1

/-! Intermediate states of the wizard run on `scVariantTimeout`. -/

def c8t0 : WSt := initWSt scVariantTimeout
def c8t1 : WSt := (linkStep c8t0).1
def c8t2 : WSt := (filenameStep env0 c8t1).1
def c8t3 : WSt := (missingInfoStep c8pi c8t2).1
def c8tpi : ParsedInfo := ((missingInfoStep c8pi c8t2).2).toOption.getD c8pi
def c8t4 : WSt := (mergeStep c8tpi "https://x/rom.zip".toList c8t3).1
def c8t5 : WSt := (romNameStep false c8tpi c8t4).1
def c8t6 : WSt := ((fun s => variantLoop (s.sc.length + 1) s : Wz Unit) c8t5).1

/-! ### Helper lemmas -/

theorem digitChar_isDigit : ∀ k, k < 10 → isDigitChar (digitChar k) = true := by decide

theorem fmtDMY_shape (y m d : Nat) : dmyShape (fmtDMY y m d) = true := by
  simp only [fmtDMY, pad2, dmyShape, List.cons_append, List.nil_append,
    Bool.and_eq_true]
  refine ⟨⟨⟨⟨⟨?_, ?_⟩, ?_⟩, ?_⟩, ?_⟩, ?_⟩ <;>
    exact digitChar_isDigit _ (Nat.mod_lt _ (by norm_num))

theorem containsSub_iff (n h : List Char) : containsSub n h = true ↔ n <:+: h := by
  induction h with
  | nil =>
    simp [containsSub, List.isEmpty_iff]
  | cons c cs ih =>
    simp [containsSub, Bool.or_eq_true, ih, List.infix_cons_iff,
      List.isPrefixOf_iff_prefix]

theorem containsSub_trans {a b c : List Char}
    (h1 : containsSub a b = true) (h2 : containsSub b c = true) :
    containsSub a c = true := by
  rw [containsSub_iff] at h1 h2 ⊢
  exact h1.trans h2

theorem official_of_unofficial {cp : List Char}
    (h : containsSub "unofficial".toList cp = true) :
    containsSub "official".toList cp = true :=
  containsSub_trans (by decide) h

theorem unofficial_not_digits {cp : List Char}
    (h : containsSub "unofficial".toList cp = true) :
    cp.all isDigitChar = false := by
  rw [containsSub_iff] at h
  have hu : 'u' ∈ cp := h.subset (by decide)
  cases hall : cp.all isDigitChar with
  | false => rfl
  | true =>
    have := List.all_eq_true.mp hall 'u' hu
    simp [isDigitChar] at this

theorem unofficial_ne_nil {cp : List Char}
    (h : containsSub "unofficial".toList cp = true) : cp ≠ [] := by
  rintro rfl
  rw [containsSub_iff, List.infix_nil] at h
  simp at h

theorem statusStep_zero (cp : List Char) (acc : Nat × Option (List Char))
    (hz : acc.1 = 0) (e : Nat × List Char) : statusStep cp acc e = acc := by
  unfold statusStep
  rw [hz]
  simp

theorem foldl_statusStep_zero (cp : List Char) (l : List (Nat × List Char))
    (acc : Nat × Option (List Char)) (hz : acc.1 = 0) :
    l.foldl (statusStep cp) acc = acc := by
  induction l with
  | nil => rfl
  | cons e t ih => rw [List.foldl_cons, statusStep_zero cp acc hz e]; exact ih

theorem statusScan_official (cp : List Char) (acc : Nat × Option (List Char))
    (hinv : acc.1 = 0 → acc.2 = some "official".toList)
    (hsub : containsSub "official".toList cp = true) :
    statusScan cp acc = (0, some "official".toList) := by
  unfold statusScan
  have he : statusPriority.enum = (0, "official".toList) :: statusPriority.enum.tail := by
    decide
  rw [he, List.foldl_cons]
  have hstep : statusStep cp acc (0, "official".toList) = (0, some "official".toList) := by
    unfold statusStep
    simp only [hsub, if_true]
    by_cases h0 : (0 : Nat) < acc.1
    · simp [h0]
    · have h00 : acc.1 = 0 := by omega
      have h01 := hinv h00
      simp only [h0, if_false]
      exact Prod.ext h00 h01
  rw [hstep]
  exact foldl_statusStep_zero cp _ _ rfl

theorem statusScan_zero (cp : List Char) (acc : Nat × Option (List Char))
    (hz : acc.1 = 0) : statusScan cp acc = acc :=
  foldl_statusStep_zero cp _ acc hz

theorem processPart_keeps_official (part : List Char) (st : ScanSt)
    (h : st.status = some "official".toList ∧ st.prio = 0) :
    (processPart st part).status = some "official".toList ∧
      (processPart st part).prio = 0 := by
  obtain ⟨h1, h2⟩ := h
  unfold processPart
  by_cases hc : cleanPart part = []
  · simp [hc, h1, h2]
  · by_cases hd : isDateRun (cleanPart part) = true
    · simp [hc, hd, h1, h2]
    · by_cases hv : st.version = none ∧ isVersionTok (cleanPart part) = true
      · simp [hc, hd, hv, h1, h2]
      · rw [if_neg hc, if_neg hd, if_neg hv]
        dsimp only
        rw [h1, h2]
        have hs : statusScan (cleanPart part) (0, some "official".toList) =
            (0, some "official".toList) := statusScan_zero _ _ rfl
        rw [hs]
        exact ⟨rfl, rfl⟩

theorem foldl_keeps_official (l : List (List Char)) (st : ScanSt)
    (h : st.status = some "official".toList ∧ st.prio = 0) :
    (l.foldl processPart st).status = some "official".toList ∧
      (l.foldl processPart st).prio = 0 := by
  induction l generalizing st with
  | nil => exact h
  | cons p t ih => exact ih _ (processPart_keeps_official p st h)

theorem statusStep_inv (cp : List Char) (acc : Nat × Option (List Char))
    (e : Nat × List Char)
    (hinv : acc.1 = 0 → acc.2 = some "official".toList)
    (he : e.1 = 0 → e.2 = "official".toList) :
    (statusStep cp acc e).1 = 0 → (statusStep cp acc e).2 = some "official".toList := by
  unfold statusStep
  by_cases hc : containsSub e.2 cp = true
  · by_cases hlt : e.1 < acc.1
    · intro hz
      simp only [hc, if_true, hlt, if_true] at hz ⊢
      rw [he hz]
    · simpa [hc, hlt] using hinv
  · simpa [hc] using hinv

theorem foldl_statusStep_inv (cp : List Char) (l : List (Nat × List Char))
    (acc : Nat × Option (List Char))
    (hl : ∀ e ∈ l, e.1 = 0 → e.2 = "official".toList)
    (hinv : acc.1 = 0 → acc.2 = some "official".toList) :
    (l.foldl (statusStep cp) acc).1 = 0 →
      (l.foldl (statusStep cp) acc).2 = some "official".toList := by
  induction l generalizing acc with
  | nil => exact hinv
  | cons e t ih =>
    rw [List.foldl_cons]
    exact ih _ (fun e' he' => hl e' (List.mem_cons_of_mem e he'))
      (statusStep_inv cp acc e hinv (hl e (List.mem_cons_self e t)))

theorem statusScan_inv (cp : List Char) (acc : Nat × Option (List Char))
    (hinv : acc.1 = 0 → acc.2 = some "official".toList) :
    (statusScan cp acc).1 = 0 → (statusScan cp acc).2 = some "official".toList :=
  foldl_statusStep_inv cp _ acc (by decide) hinv

theorem processPart_inv (part : List Char) (st : ScanSt)
    (hinv : st.prio = 0 → st.status = some "official".toList) :
    (processPart st part).prio = 0 →
      (processPart st part).status = some "official".toList := by
  unfold processPart
  by_cases hc : cleanPart part = []
  · simpa [hc] using hinv
  · by_cases hd : isDateRun (cleanPart part) = true
    · simpa [hc, hd] using hinv
    · by_cases hv : st.version = none ∧ isVersionTok (cleanPart part) = true
      · simpa [hc, hd, hv] using hinv
      · have := statusScan_inv (cleanPart part) (st.prio, st.status) hinv
        simpa [hc, hd, hv] using this

theorem foldl_processPart_inv (l : List (List Char)) (st : ScanSt)
    (hinv : st.prio = 0 → st.status = some "official".toList) :
    (l.foldl processPart st).prio = 0 →
      (l.foldl processPart st).status = some "official".toList := by
  induction l generalizing st with
  | nil => exact hinv
  | cons p t ih => exact ih _ (processPart_inv p st hinv)

/-! ### Claim C1 -/

/-- C1: on the filename `Axion-v6.2-cancunf-OFFICIAL-GAPPS-20240115.zip`,
`parse_filename` returns rom_name `Axion`, version `6.2`, device `cancunf`,
status `Official`, variant `GAPPS` and build date `15/01/24`, for every
value of the current date. -/
theorem C1_axion_round_trip (today : List Char) :
    parse_filename axionName today =
      some { version := "6.2".toList, build_date := "15/01/24".toList,
             status := "Official".toList, variant_type := "GAPPS".toList,
             device_name := some "cancunf".toList,
             rom_name := some "Axion".toList } := by
  have hscan : scanPhase axionName =
      { version := some "6.2".toList, build_date := some "20240115".toList,
        status := some "official".toList, prio := 0,
        variant_type := some "gapps".toList,
        candidates := ["cancunf".toList] } := by decide
  simp only [parse_filename, hscan]
  rfl

/-! ### Claim C2 -/

/-- C2, counterexample: the filename `-` normalizes to zero non-empty
hyphen-separated segments, yet `parse_filename` returns a record, because the
source only counts segments (empty ones included): `len(parts) < 2`. -/
theorem C2_counterexample :
    ((splitOnChar '-' (normalizeName "-".toList)).filter (· ≠ [])).length < 2 ∧
      parse_filename "-".toList "01/01/24".toList ≠ none := by decide

/-- C2, amended: `parse_filename` returns null exactly when splitting the
normalized filename on the hyphen yields fewer than two segments, counting
empty segments as well. -/
theorem C2_null_iff_two_segments (f t : List Char) :
    parse_filename f t = none ↔ (splitOnChar '-' (normalizeName f)).length < 2 := by
  unfold parse_filename
  by_cases h : (splitOnChar '-' (normalizeName f)).length < 2
  · simp [h]
  · simp [h]

/-! ### Claim C5 -/

/-- C5: the build-date post-processing is total: on any digit run of length at
least six it agrees with the specification's description (8 digits as
YYYYMMDD, 6 digits as YYMMDD, otherwise the last 8 characters as YYYYMMDD),
and the result is either the raw digits kept verbatim or a rendered
`dd/mm/yy` string. -/
theorem C5_date_postprocessing (bd : List Char)
    (h1 : bd.all isDigitChar = true) (h2 : 6 ≤ bd.length) :
    processDate bd = claimDateFormat bd ∧
      (processDate bd = bd ∨ dmyShape (processDate bd) = true) := by
  constructor
  · unfold processDate claimDateFormat
    by_cases h8 : bd.length = 8
    · simp [h8]
    · by_cases h6 : bd.length = 6
      · simp [h8, h6]
      · have h7 : (if 8 < bd.length then lastN 8 bd else bd) = lastN 8 bd := by
          by_cases hg : 8 < bd.length
          · simp [hg]
          · have hl : bd.length = 7 := by omega
            simp [hg, lastN, hl]
        simp [h8, h6, h7]
  · rcases hq : (if bd.length = 8 then strpY4 bd
        else if bd.length = 6 then strpY2 bd
        else strpY4 (if 8 < bd.length then lastN 8 bd else bd)) with _ | ⟨y, m, d⟩
    · left; simp [processDate, hq]
    · right; simp [processDate, hq, fmtDMY_shape]

/-- C5, witness at the digit run `20240115`. -/
theorem C5_witness :
    ("20240115".toList.all isDigitChar = true ∧ 6 ≤ "20240115".toList.length) ∧
      (processDate "20240115".toList = claimDateFormat "20240115".toList ∧
        (processDate "20240115".toList = "20240115".toList ∨
          dmyShape (processDate "20240115".toList) = true)) :=
  ⟨by decide, C5_date_postprocessing "20240115".toList (by decide) (by decide)⟩

/-! ### Claim C7 -/

/-- C7: a `/new` request whose key already has an active session, from a
non-banned user in an allowed context and within the daily limit, is refused
with the conflict message and changes nothing: registry, statistics and
drafts are returned exactly as they were. -/
theorem C7_conflict_refusal (env : Env) (g : GlobalSt) (req : Req) (sc : List Ev)
    (h : req.key ∈ g.registry)
    (hb : req.banned = false)
    (hperm : req.allowedChat = true ∨ (req.isPm = true ∧ req.pmEnabled = true) ∨
      req.isOwner = true)
    (hlim : req.isOwner = true ∨ req.canPost = true) :
    handleNew env g req sc = (g, HandleRes.refusedConflict) := by
  unfold handleNew
  rw [if_neg, if_neg, if_neg, if_pos h]
  · rintro ⟨h1, h2⟩
    rcases hlim with h3 | h3 <;> simp_all
  · rintro ⟨h1, h2⟩
    rcases hperm with h3 | ⟨h3, h4⟩ | h3 <;> simp_all
  · simp [hb]

/-- C7, witness: concrete refused request on an occupied key. -/
theorem C7_witness :
    (req0.key ∈ g0.registry ∧ req0.banned = false ∧ req0.canPost = true) ∧
      handleNew env0 g0 req0 scPreviewTimeout = (g0, HandleRes.refusedConflict) :=
  ⟨by decide,
   C7_conflict_refusal env0 g0 req0 scPreviewTimeout (by decide) (by decide)
     (Or.inr (Or.inl (by decide))) (Or.inr (by decide))⟩

/-- The status field of any record returned by `parse_filename` is the
capitalized scan status with the `unofficial` default. -/
theorem parse_status (f t : List Char) (r : FilenameRecord)
    (h : parse_filename f t = some r) :
    r.status = capitalizePy (((scanPhase f).status).getD "unofficial".toList) := by
  simp only [parse_filename] at h
  split at h
  · exact absurd h (by simp)
  · injection h with h2
    rw [← h2]
    cases (scanPhase f).status <;> rfl

/-! ### Claim C3 -/

/-- C3, counterexample: in `rom-v1unofficial` the segment `v1unofficial`
contains both `unofficial` and `official`, yet the returned status is
`Unofficial`, because the segment is consumed by the version branch (leading
`v`, contains a digit) whose `continue` skips the status scan. -/
theorem C3_counterexample :
    ("v1unofficial".toList ∈ (splitOnChar '-' (normalizeName "rom-v1unofficial".toList)).tail) ∧
    containsSub "unofficial".toList "v1unofficial".toList = true ∧
    containsSub "official".toList "v1unofficial".toList = true ∧
    parse_filename "rom-v1unofficial".toList "01/01/24".toList =
      some { version := "1unofficial".toList, build_date := "01/01/24".toList,
             status := "Unofficial".toList, variant_type := "STANDARD".toList,
             device_name := none, rom_name := some "Rom".toList } ∧
    "Unofficial".toList ≠ "Official".toList := by decide

/-- C3, amended: for every filename in which some hyphen-separated segment
after the first — truncated at its first dot and stripped — contains
`unofficial` (hence also `official`) and does not begin with the letter `v`
(so it cannot be consumed by the version branch), `parse_filename` returns
status `Official`: the highest-priority keyword wins regardless of where the
segment occurs. -/
theorem C3_official_wins (f t p : List Char)
    (hp : p ∈ (splitOnChar '-' (normalizeName f)).tail)
    (hsub : containsSub "unofficial".toList (cleanPart p) = true)
    (hv : (cleanPart p).headD ' ' ≠ 'v') :
    ∃ r, parse_filename f t = some r ∧ r.status = "Official".toList := by
  have hlen : ¬((splitOnChar '-' (normalizeName f)).length < 2) := by
    rcases hsp : splitOnChar '-' (normalizeName f) with _ | ⟨h0, tl⟩
    · rw [hsp] at hp; simp at hp
    · rw [hsp] at hp
      simp only [List.tail_cons] at hp
      have h1 : tl ≠ [] := List.ne_nil_of_mem hp
      have h2 : 0 < tl.length := List.length_pos.mpr h1
      simp only [List.length_cons]
      omega
  have hne : cleanPart p ≠ [] := unofficial_ne_nil hsub
  have hnd : (cleanPart p).all isDigitChar = false := unofficial_not_digits hsub
  have hoff : containsSub "official".toList (cleanPart p) = true :=
    official_of_unofficial hsub
  have hdate : ¬(isDateRun (cleanPart p) = true) := by simp [isDateRun, hnd]
  have hscan : (scanPhase f).status = some "official".toList := by
    obtain ⟨l1, l2, hsplit⟩ := List.append_of_mem hp
    simp only [scanPhase]
    rw [hsplit, List.foldl_append, List.foldl_cons]
    have hmidinv : (l1.foldl processPart (initScanSt (findDotted (normalizeName f)))).prio = 0 →
        (l1.foldl processPart (initScanSt (findDotted (normalizeName f)))).status =
          some "official".toList :=
      foldl_processPart_inv l1 _ (by intro h; simp [initScanSt] at h)
    set mid := l1.foldl processPart (initScanSt (findDotted (normalizeName f))) with hmid
    have hvt : ¬(mid.version = none ∧ isVersionTok (cleanPart p) = true) := by
      rintro ⟨_, hvtok⟩
      simp only [isVersionTok, hnd, Bool.and_false, Bool.or_false,
        Bool.and_eq_true, decide_eq_true_eq] at hvtok
      exact hv hvtok.1
    have hstep : (processPart mid p).status = some "official".toList ∧
        (processPart mid p).prio = 0 := by
      unfold processPart
      rw [if_neg hne, if_neg hdate, if_neg hvt]
      dsimp only
      have hs := statusScan_official (cleanPart p) (mid.prio, mid.status) hmidinv hoff
      rw [hs]
      exact ⟨rfl, rfl⟩
    exact (foldl_keeps_official l2 _ hstep).1
  obtain ⟨r, hr⟩ : ∃ r, parse_filename f t = some r := by
    rcases ho : parse_filename f t with _ | r
    · exfalso
      revert ho
      simp only [parse_filename]
      rw [if_neg hlen]
      simp
    · exact ⟨r, rfl⟩
  refine ⟨r, hr, ?_⟩
  rw [parse_status f t r hr, hscan]
  rfl

/-- C3, witness at `rom-xunofficial` (segment not starting with `v`). -/
theorem C3_witness :
    ("xunofficial".toList ∈
        (splitOnChar '-' (normalizeName "rom-xunofficial".toList)).tail) ∧
      ∃ r, parse_filename "rom-xunofficial".toList "01/01/24".toList = some r ∧
        r.status = "Official".toList :=
  ⟨by decide,
   C3_official_wins "rom-xunofficial".toList "01/01/24".toList "xunofficial".toList
     (by decide) (by decide) (by decide)⟩

/-! ### Claim C4 -/

/-- C4, counterexample: in `rom-v1beta` the segment `v1beta` is consumed as
the version, and although it contains the status keyword `beta` it is not
scanned for status keywords: the status defaults to `Unofficial`. -/
theorem C4_counterexample :
    containsSub "beta".toList "v1beta".toList = true ∧
      parse_filename "rom-v1beta".toList "01/01/24".toList =
        some { version := "1beta".toList, build_date := "01/01/24".toList,
               status := "Unofficial".toList, variant_type := "STANDARD".toList,
               device_name := none, rom_name := some "Rom".toList } ∧
      "Unofficial".toList ≠ "Beta".toList := by decide

/-- C4, amended: each segment after the first is tested by a cascade, not
independently: an empty clean segment is skipped; a 6-or-more-digit run is
consumed by the build-date branch and not scanned further; otherwise a
version-shaped token (while the version is unset) is consumed by the version
branch and not scanned further; and only a segment consumed by neither
branch is tested — independently and non-exclusively — for status keywords,
variant keywords and the device-codename shape. -/
theorem C4_segment_cascade (st : ScanSt) (part : List Char) :
    (cleanPart part = [] → processPart st part = st) ∧
    (cleanPart part ≠ [] → isDateRun (cleanPart part) = true →
      processPart st part =
        { st with build_date :=
            if st.build_date = none then some (cleanPart part) else st.build_date }) ∧
    (cleanPart part ≠ [] → isDateRun (cleanPart part) = false →
      st.version = none → isVersionTok (cleanPart part) = true →
      processPart st part =
        { st with version := some ((cleanPart part).dropWhile (· = 'v')) }) ∧
    (cleanPart part ≠ [] → isDateRun (cleanPart part) = false →
      ¬(st.version = none ∧ isVersionTok (cleanPart part) = true) →
      processPart st part =
        deviceUpdateOf (cleanPart part)
          (variantUpdateOf (cleanPart part) (statusUpdateOf (cleanPart part) st))) := by
  refine ⟨?_, ?_, ?_, ?_⟩
  · intro hc
    unfold processPart
    rw [if_pos hc]
  · intro hc hd
    unfold processPart
    rw [if_neg hc, if_pos hd]
  · intro hc hd hu hv
    unfold processPart
    rw [if_neg hc, if_neg (by simp [hd]), if_pos ⟨hu, hv⟩]
  · intro hc hd hnv
    unfold processPart
    rw [if_neg hc, if_neg (by simp [hd]), if_neg hnv]
    rfl

/-- C4, witness: a segment carrying both a status and a variant keyword is
classified for both at once (non-exclusive tests on unconsumed segments). -/
theorem C4_witness :
    (cleanPart "officialgapps".toList ≠ [] ∧
        isDateRun (cleanPart "officialgapps".toList) = false) ∧
      (¬(ScanSt.version (initScanSt none) = none ∧
          isVersionTok (cleanPart "officialgapps".toList) = true) →
        processPart (initScanSt none) "officialgapps".toList =
          deviceUpdateOf (cleanPart "officialgapps".toList)
            (variantUpdateOf (cleanPart "officialgapps".toList)
              (statusUpdateOf (cleanPart "officialgapps".toList) (initScanSt none)))) :=
  ⟨by decide,
   (C4_segment_cascade (initScanSt none) "officialgapps".toList).2.2.2
     (by decide) (by decide)⟩

/-! ### Claim C6 -/

theorem deviceSelect_eq_claimRule (cands : List (List Char)) :
    deviceSelect cands = claimDeviceRule cands := by
  unfold deviceSelect claimDeviceRule
  by_cases hc : cands = []
  · simp [hc]
  · rcases hf : cands.find? codenameShape with _ | c
    · simp [hc, hf]
    · have hshape := List.find?_some hf
      have hne : c ≠ [] := by
        intro he
        rw [he] at hshape
        simp [codenameShape] at hshape
      simp [hc, hf, hne]

/-- C6: for every parsed filename, the device name follows the source's
selection rule exactly as the claim states it: the first collected candidate
that matches the codename shape on re-check, else the last candidate, and
absent when the candidate list is empty. -/
theorem C6_device_selection (f t : List Char) (r : FilenameRecord)
    (h : parse_filename f t = some r) :
    r.device_name = claimDeviceRule (scanPhase f).candidates := by
  simp only [parse_filename] at h
  split at h
  · exact absurd h (by simp)
  · injection h with h2
    rw [← h2]
    exact deviceSelect_eq_claimRule _

/-- C6, witness at the axion filename. -/
theorem C6_witness :
    parse_filename axionName "01/01/24".toList =
        some { version := "6.2".toList, build_date := "15/01/24".toList,
               status := "Official".toList, variant_type := "GAPPS".toList,
               device_name := some "cancunf".toList,
               rom_name := some "Axion".toList } ∧
      FilenameRecord.device_name
          { version := "6.2".toList, build_date := "15/01/24".toList,
            status := "Official".toList, variant_type := "GAPPS".toList,
            device_name := some "cancunf".toList,
            rom_name := some "Axion".toList } =
        claimDeviceRule (scanPhase axionName).candidates :=
  ⟨by decide,
   C6_device_selection axionName "01/01/24".toList _ (by decide)⟩

/-! ### Claim C9 -/

/-- C9: every call of the response router deregisters both temporary
listeners on every outcome — text winner, choice winner, timeout, or
internal error — so the listener registration set is returned unchanged. -/
theorem C9_router_no_listener_leak (s : WSt) :
    ((getRespOrCb s).1).handlers = s.handlers := by
  rcases hsc : s.sc with _ | ⟨e, rest⟩
  · simp [getRespOrCb, hsc, List.erase_cons_head]
  · cases e <;> simp [getRespOrCb, hsc, List.erase_cons_head]

/-! ### Claim C10 -/

theorem foldl_statusStep_no_update (cp : List Char) (l : List (Nat × List Char))
    (acc : Nat × Option (List Char)) (hno : ∀ e ∈ l, ¬(e.1 < acc.1)) :
    l.foldl (statusStep cp) acc = acc := by
  induction l with
  | nil => rfl
  | cons e t ih =>
    rw [List.foldl_cons]
    have hstep : statusStep cp acc e = acc := by
      unfold statusStep
      by_cases hc : containsSub e.2 cp = true
      · rw [if_pos hc, if_neg (hno e (List.mem_cons_self e t))]
      · simp [hc]
    rw [hstep]
    exact ih (fun e' he' => hno e' (List.mem_cons_of_mem e he'))

theorem foldl_statusStep_eq_find (cp : List Char) (l : List (Nat × List Char))
    (hsorted : l.Pairwise (fun a b => a.1 ≤ b.1)) (acc : Nat × Option (List Char)) :
    l.foldl (statusStep cp) acc =
      (match l.find? (fun e => containsSub e.2 cp) with
       | some e => if e.1 < acc.1 then (e.1, some e.2) else acc
       | none => acc) := by
  induction l generalizing acc with
  | nil => rfl
  | cons e t ih =>
    rw [List.foldl_cons]
    rcases List.pairwise_cons.mp hsorted with ⟨hhead, htail⟩
    by_cases hc : containsSub e.2 cp = true
    · rw [@List.find?_cons_of_pos _ (fun e => containsSub e.2 cp) e t hc]
      have hstep : statusStep cp acc e = if e.1 < acc.1 then (e.1, some e.2) else acc := by
        unfold statusStep
        rw [if_pos hc]
      rw [hstep]
      dsimp only
      by_cases hlt : e.1 < acc.1
      · rw [if_pos hlt]
        refine foldl_statusStep_no_update cp t _ (fun e' he' => ?_)
        have := hhead e' he'
        simp only
        omega
      · rw [if_neg hlt]
        refine foldl_statusStep_no_update cp t _ (fun e' he' => ?_)
        have := hhead e' he'
        omega
    · rw [@List.find?_cons_of_neg _ (fun e => containsSub e.2 cp) e t (by simpa using hc)]
      have hstep : statusStep cp acc e = acc := by simp [statusStep, hc]
      rw [hstep]
      exact ih htail acc

theorem statusScan_eq_idx (cp : List Char) (acc : Nat × Option (List Char)) :
    statusScan cp acc = statusScanIdx cp acc := by
  unfold statusScan statusScanIdx
  rw [foldl_statusStep_eq_find cp _ (by decide) acc]

theorem processPart_eq_idx (st : ScanSt) (part : List Char) :
    processPartIdx st part = processPart st part := by
  unfold processPart processPartIdx
  by_cases hc : cleanPart part = []
  · rw [if_pos hc, if_pos hc]
  · rw [if_neg hc, if_neg hc]
    by_cases hd : isDateRun (cleanPart part) = true
    · rw [if_pos hd, if_pos hd]
    · rw [if_neg hd, if_neg hd]
      by_cases hv : st.version = none ∧ isVersionTok (cleanPart part) = true
      · rw [if_pos hv, if_pos hv]
      · rw [if_neg hv, if_neg hv]
        rw [statusScan_eq_idx]
        rcases hvt : st.variant_type with _ | v
        · rcases hf : variantKeywords.find? (fun k => containsSub k (cleanPart part))
            with _ | k
          · simp [hvt, hf, variantScan]
          · have hdt : deviceTest (cleanPart part) = false := by
              have hmem := List.mem_of_find?_eq_some hf
              have hp := List.find?_some hf
              have hany : variantKeywords.any (fun v => containsSub v (cleanPart part)) = true :=
                List.any_eq_true.mpr ⟨k, hmem, hp⟩
              simp [deviceTest, hany]
            simp [hvt, hf, variantScan, hdt]
        · simp [hvt, variantScan]

theorem foldl_processPart_eq_idx (l : List (List Char)) (st : ScanSt) :
    l.foldl processPartIdx st = l.foldl processPart st := by
  induction l generalizing st with
  | nil => rfl
  | cons p t ih => rw [List.foldl_cons, List.foldl_cons, processPart_eq_idx]; exact ih _

/-- C10, counterexample: on the axion filename the two extractors disagree on
build_date (raw digits vs. rendered date), device_name (absent vs. found) and
status (lowercase vs. capitalized), because `index.py`'s copy has its entire
post-processing elided behind `# ...existing code...` comments. -/
theorem C10_counterexample :
    (index_parse_filename axionName).map IndexRecord.build_date =
        some (some "20240115".toList) ∧
      (parse_filename axionName "01/01/24".toList).map FilenameRecord.build_date =
        some "15/01/24".toList ∧
      (index_parse_filename axionName).map IndexRecord.device_name = some none ∧
      (parse_filename axionName "01/01/24".toList).map FilenameRecord.device_name =
        some (some "cancunf".toList) ∧
      (index_parse_filename axionName).map IndexRecord.status =
        some (some "official".toList) ∧
      (parse_filename axionName "01/01/24".toList).map FilenameRecord.status =
        some "Official".toList ∧
      ("20240115".toList ≠ "15/01/24".toList ∧
        (none : Option (List Char)) ≠ some "cancunf".toList ∧
        "official".toList ≠ "Official".toList) := by decide

/-- C10, amended: the two extractors agree on the null/record outcome, and
`index.py`'s record is exactly the raw scan-phase state of `bot.py`'s
extractor (same rom_name, raw version/build_date/status/variant_type, device
never filled in); the post-processed fields of `bot.py`'s record differ. -/
theorem C10_index_equals_raw_scan (f t : List Char) :
    index_parse_filename f = rawRecordOf f ∧
      ((index_parse_filename f).isSome ↔ (parse_filename f t).isSome) := by
  constructor
  · unfold index_parse_filename rawRecordOf
    by_cases h : (splitOnChar '-' (normalizeName f)).length < 2
    · rw [if_pos h, if_pos h]
    · rw [if_neg h, if_neg h]
      simp only [scanPhase]
      rw [foldl_processPart_eq_idx]
  · unfold index_parse_filename parse_filename
    by_cases h : (splitOnChar '-' (normalizeName f)).length < 2
    · simp [h]
    · simp [h]

/-! ### Claim C8 -/

/-- The wizard body on `scPreviewTimeout` runs to completion, evaluated one
step at a time. -/
theorem c8_body_run :
    wizardBody env0 (initWSt scPreviewTimeout) = (c8s15, Except.ok BodyRes.completed) := by
  unfold wizardBody
  rw [wz_bind_ok (show presetStep env0 (initWSt scPreviewTimeout) =
    (c8s0, Except.ok false) from rfl)]
  dsimp only
  rw [wz_bind_ok (show linkStep c8s0 =
    (c8s1, Except.ok (some "https://x/rom.zip".toList)) from rfl)]
  dsimp only
  rw [wz_bind_ok (show filenameStep env0 c8s1 =
    (c8s2, Except.ok (some axionName)) from rfl)]
  dsimp only
  rw [wz_bind_ok (show missingInfoStep (parsedInfoOf env0 axionName) c8s2 =
    (c8s3, Except.ok c8pi2) from rfl)]
  rw [wz_bind_ok (show mergeStep c8pi2 "https://x/rom.zip".toList c8s3 =
    (c8s4, Except.ok ()) from rfl)]
  rw [wz_bind_ok (show romNameStep false c8pi2 c8s4 =
    (c8s5, Except.ok ()) from rfl)]
  rw [@wz_bind_ok Unit BodyRes (fun s => variantLoop (s.sc.length + 1) s) _ c8s5 c8s6 () rfl]
  rw [wz_bind_ok (show supportStep env0 c8s6 = (c8s7, Except.ok ()) from rfl)]
  rw [wz_bind_ok (show screenshotsStep c8s7 = (c8s8, Except.ok ()) from rfl)]
  rw [wz_bind_ok (show dcStep env0 c8s8 = (c8s9, Except.ok ()) from rfl)]
  rw [wz_bind_ok (show scStep env0 false c8s9 = (c8s10, Except.ok ()) from rfl)]
  rw [wz_bind_ok (show notesStep env0 c8s10 = (c8s11, Except.ok ()) from rfl)]
  rw [wz_bind_ok (show creditsStep env0 c8s11 = (c8s12, Except.ok ()) from rfl)]
  rw [wz_bind_ok (show shaStep c8s12 = (c8s13, Except.ok ()) from rfl)]
  rw [wz_bind_ok (show previewStep env0 c8s13 =
    (c8s14, Except.ok ("default".toList, (none : Option Nat))) from rfl)]
  rw [wz_bind_ok (show postingStep env0 c8s14 = (c8s15, Except.ok ()) from rfl)]
  rfl

/-- C8, counterexample: on a script that reaches the preview-selection loop
and then times out, the await's timeout is caught inside that loop
(`bot.py` lines 1868-1870): the session is not terminated — it proceeds to
post (the post counter is incremented) and completes. -/
theorem C8_counterexample :
    Ev.tout ∈ scPreviewTimeout ∧
      (runNewPost env0 gE (1, 2) scPreviewTimeout).2.1 = WizResult.completed ∧
      "Selection timed out. Using current options." ∈
        (runNewPost env0 gE (1, 2) scPreviewTimeout).2.2 ∧
      StatOp.postIncrement ∈ (runNewPost env0 gE (1, 2) scPreviewTimeout).1.stats := by
  have hb := c8_body_run
  refine ⟨by decide, ?_, ?_, ?_⟩
  · simp [runNewPost, hb]
  · simp only [runNewPost, hb]
    decide
  · simp only [runNewPost, hb]
    decide

/-- C8, amended: a timeout raised by any await of the main step sequence or
of either bounded-repeat loop terminates the whole session: the two
bounded-repeat loops propagate the timeout instead of merely exiting
(conjuncts three to five, at every await of an iteration), any timeout that
escapes the wizard body yields the timed-out result with the user notified
(conjunct two), and the registry entry is removed on every exit path
(conjunct one); only the final preview-selection loop catches its timeout
and completes with current options. -/
theorem C8_timeout_terminates (env : Env) (g : GlobalSt) (key : Key) (sc : List Ev)
    (h : key ∉ g.registry) :
    ((runNewPost env g key sc).1.registry = g.registry ∧
      key ∉ (runNewPost env g key sc).1.registry) ∧
    (bodyOutcome env sc = Except.error WErr.timeout →
      (runNewPost env g key sc).2.1 = WizResult.timedOut ∧
      "Command timed out. Please try again." ∈ (runNewPost env g key sc).2.2) ∧
    (∀ (s : WSt) (rest : List Ev) (fuel : Nat), s.sc = Ev.tout :: rest →
      (variantLoop (fuel + 1) s).2 = Except.error WErr.timeout) ∧
    (∀ (s : WSt) (rest : List Ev) (fuel : Nat),
      s.sc = Ev.cb "Yes".toList :: Ev.tout :: rest →
      (variantLoop (fuel + 1) s).2 = Except.error WErr.timeout) ∧
    (∀ (s : WSt) (n : List Char) (rest : List Ev) (fuel : Nat),
      s.sc = Ev.cb "Yes".toList :: Ev.msg n :: Ev.tout :: rest →
      (variantLoop (fuel + 1) s).2 = Except.error WErr.timeout) ∧
    (∀ (s : WSt) (v : Variant) (vs : List Variant) (rest : List Ev),
      s.sc = Ev.tout :: rest →
      (shaLoop (v :: vs) s).2 = Except.error WErr.timeout) := by
  have hreg : (runNewPost env g key sc).1.registry = g.registry := by
    simp only [runNewPost]
    rw [if_pos (List.mem_cons_self key g.registry), List.erase_cons_head]
  refine ⟨⟨hreg, by rw [hreg]; exact h⟩, ?_, ?_, ?_, ?_, ?_⟩
  · intro htm
    rcases hb : wizardBody env (initWSt sc) with ⟨s1, res⟩
    have hres : res = Except.error WErr.timeout := by
      have : bodyOutcome env sc = res := by rw [bodyOutcome, hb]
      rw [← this]; exact htm
    subst hres
    constructor
    · simp [runNewPost, hb]
    · simp [runNewPost, hb]
  · intro s rest fuel hsc
    obtain ⟨sc', sends', persist', stats', handlers', fresh', draft'⟩ := s
    simp only at hsc
    subst hsc
    rfl
  · intro s rest fuel hsc
    obtain ⟨sc', sends', persist', stats', handlers', fresh', draft'⟩ := s
    simp only at hsc
    subst hsc
    rfl
  · intro s n rest fuel hsc
    obtain ⟨sc', sends', persist', stats', handlers', fresh', draft'⟩ := s
    simp only at hsc
    subst hsc
    rfl
  · intro s v vs rest hsc
    obtain ⟨sc', sends', persist', stats', handlers', fresh', draft'⟩ := s
    simp only at hsc
    subst hsc
    rfl

/-- The wizard body on `scVariantTimeout` raises the timeout from inside the
additional-variant loop, evaluated one step at a time. -/
theorem c8_body_timeout :
    wizardBody env0 (initWSt scVariantTimeout) = (c8t6, Except.error WErr.timeout) := by
  unfold wizardBody
  rw [wz_bind_ok (show presetStep env0 (initWSt scVariantTimeout) =
    (c8t0, Except.ok false) from rfl)]
  dsimp only
  rw [wz_bind_ok (show linkStep c8t0 =
    (c8t1, Except.ok (some "https://x/rom.zip".toList)) from rfl)]
  dsimp only
  rw [wz_bind_ok (show filenameStep env0 c8t1 =
    (c8t2, Except.ok (some axionName)) from rfl)]
  dsimp only
  rw [wz_bind_ok (show missingInfoStep (parsedInfoOf env0 axionName) c8t2 =
    (c8t3, Except.ok c8tpi) from rfl)]
  rw [wz_bind_ok (show mergeStep c8tpi "https://x/rom.zip".toList c8t3 =
    (c8t4, Except.ok ()) from rfl)]
  rw [wz_bind_ok (show romNameStep false c8tpi c8t4 =
    (c8t5, Except.ok ()) from rfl)]
  rw [@wz_bind_error Unit BodyRes (fun s => variantLoop (s.sc.length + 1) s) _
    c8t5 c8t6 WErr.timeout rfl]

/-- C8, witness: on the variant-loop timeout script with a free key, the
registry is restored and the body's timeout is real, so the session result is
the timed-out notification. -/
theorem C8_witness :
    ((1, 2) : Key) ∉ gE.registry ∧
      (runNewPost env0 gE (1, 2) scVariantTimeout).1.registry = gE.registry ∧
      (bodyOutcome env0 scVariantTimeout = Except.error WErr.timeout →
        (runNewPost env0 gE (1, 2) scVariantTimeout).2.1 = WizResult.timedOut ∧
        "Command timed out. Please try again." ∈
          (runNewPost env0 gE (1, 2) scVariantTimeout).2.2) ∧
      bodyOutcome env0 scVariantTimeout = Except.error WErr.timeout :=
  ⟨by decide,
   ((C8_timeout_terminates env0 gE (1, 2) scVariantTimeout (by decide)).1).1,
   (C8_timeout_terminates env0 gE (1, 2) scVariantTimeout (by decide)).2.1,
   by unfold bodyOutcome; rw [c8_body_timeout]⟩

end Postmaker
